import Mathlib

/-!
Verification development for the polyline rendering extension
(`src/polyline.rs`): the CPU-side `Polyline` ring buffer and its
`add_vertex` append, the prepared `GpuPolyline` and the `DrawPolyline`
render command, the `PolylinePipelineKey` MSAA packing, and the
label / blend / depth-write selection of `PolylinePipeline::specialize`.

Machine integers are modelled as `Nat` with explicit `% 2^32` where a
`u32` cast or `u32` arithmetic occurs.  Operations that can abort at
run time in Rust (slice indexing out of bounds, `usize` underflow,
`% 0`) are modelled in `Option`, returning `none` exactly where the
Rust code would panic (debug semantics; in release the same inputs
wrap and then index out of bounds on the next call).  The `f32`
vertex payload (`Vec3`) never influences control flow, so the vertex
element type is a type parameter `V`.
-/

/-- `IndexRange { start: u32, end: u32 }` from `polyline.rs`.  `end` is a
Lean keyword, so the field is written `«end»`. -/
structure IndexRange where
  start : Nat
  «end» : Nat
  deriving DecidableEq, Repr

/-- The CPU-side `Polyline` asset.  `vertices : Vec<Vec3>` is modelled as a
list over an arbitrary payload type `V`.  `vec![x; n]` allocates length =
capacity = `n` and the containers never grow (spec invariant 1), so
`Vec::capacity()` is modelled as `List.length`. -/
structure Polyline (V : Type) where
  vertices : List V
  current_vertex_index : Nat
  index_ranges : List IndexRange
  current_index_index : Nat
  deriving DecidableEq

/-- `Polyline::with_capacity(capacity)`.  `z` stands for `Vec3::ZERO`. -/
def Polyline.with_capacity {V : Type} (z : V) (capacity : Nat) : Polyline V :=
  { vertices := List.replicate capacity z
    index_ranges := List.replicate capacity ⟨0, 0⟩
    current_vertex_index := 0
    current_index_index := 0 }

/-- 2^32, the `u32` modulus. -/
def U32MOD : Nat := 4294967296

/-- `Polyline::add_vertex(vertex, connected)`, line by line:

* `self.vertices[self.current_vertex_index] = vertex` — panics (`none`)
  if the index is out of bounds;
* if `connected`: `self.index_ranges[self.current_index_index].end =
  self.current_vertex_index as u32 + 1` — panics if out of bounds; the
  `as u32` cast and the `u32` addition are `% 2^32`;
* else: `self.current_index_index = (self.current_index_index + 1) %
  self.index_ranges.capacity()` — panics if the capacity is 0 — then the
  range at the new position is set to
  `[current_vertex_index as u32, current_vertex_index as u32 + 1)`;
* `self.current_vertex_index = (self.current_vertex_index + 1) %
  self.vertices.capacity() - 1` — `%` binds tighter than `-` in Rust, and
  the `usize` subtraction panics (`none`) when the remainder is 0. -/
def Polyline.add_vertex {V : Type} (p : Polyline V) (vertex : V)
    (connected : Bool) : Option (Polyline V) :=
  if p.current_vertex_index < p.vertices.length then
    let vertices := p.vertices.set p.current_vertex_index vertex
    let upd : Option (List IndexRange × Nat) :=
      if connected then
        match p.index_ranges[p.current_index_index]? with
        | some r =>
          some (p.index_ranges.set p.current_index_index
                  { r with «end» :=
                      (p.current_vertex_index % U32MOD + 1) % U32MOD },
                p.current_index_index)
        | none => none
      else
        if 0 < p.index_ranges.length then
          let cii := (p.current_index_index + 1) % p.index_ranges.length
          some (p.index_ranges.set cii
                  { start := p.current_vertex_index % U32MOD
                    «end» := (p.current_vertex_index % U32MOD + 1) % U32MOD },
                cii)
        else none
    match upd with
    | some (index_ranges, current_index_index) =>
      if (p.current_vertex_index + 1) % p.vertices.length ≠ 0 then
        some { vertices := vertices
               index_ranges := index_ranges
               current_index_index := current_index_index
               current_vertex_index :=
                 (p.current_vertex_index + 1) % p.vertices.length - 1 }
      else none
    | none => none
  else none

/-- The prepared form of a polyline.  The GPU `vertex_buffer : Buffer`
handle carries no data the draw path inspects; it is modelled as an
opaque identifier. -/
structure GpuPolyline where
  vertex_buffer : Nat
  index_ranges : List IndexRange
  deriving DecidableEq, Repr

/-- The result type of a render command. -/
inductive RenderCommandResult where
  | Success
  | Failure
  deriving DecidableEq, Repr

/-- One recorded call on the tracked render pass: the vertex-buffer bind
(slot, buffer) or a `draw(vertex_range, instance_range)` with the ranges
half-open. -/
inductive PassCmd where
  | setVertexBuffer (slot : Nat) (buffer : Nat)
  | draw (vstart vstop istart istop : Nat)
  deriving DecidableEq, Repr

/-- `DrawPolyline::render`: the asset-map lookup result is passed in as
`Option GpuPolyline`.  Returns the `RenderCommandResult` together with the
list of pass calls issued, in order.  When the asset is present the code
binds the vertex buffer at slot 0 over its full extent, then for each
range with `range.start != 0 && range.end != 0` issues
`pass.draw(0..6, range.start..range.end)`. -/
def drawPolyline (gpu : Option GpuPolyline) :
    RenderCommandResult × List PassCmd :=
  match gpu with
  | some g =>
    (RenderCommandResult.Success,
      PassCmd.setVertexBuffer 0 g.vertex_buffer ::
        (g.index_ranges.filter
            (fun r => r.start != 0 && r.«end» != 0)).map
          (fun r => PassCmd.draw 0 6 r.start r.«end»))
  | none => (RenderCommandResult.Failure, [])

/-- `PolylinePipelineKey::MSAA_MASK_BITS = 0b111`. -/
def MSAA_MASK_BITS : Nat := 7

/-- `PolylinePipelineKey::MSAA_SHIFT_BITS = 32 - 0b111.count_ones() = 29`. -/
def MSAA_SHIFT_BITS : Nat := 32 - 3

/-- `u32::trailing_zeros`: the index of the least significant set bit of
the 32-bit value, or 32 when the value is 0. -/
def u32_trailing_zeros (n : Nat) : Nat :=
  match (List.range 32).find? (fun i => (n % U32MOD).testBit i) with
  | some i => i
  | none => 32

/-- `PolylinePipelineKey::from_msaa_samples`: places
`msaa_samples.trailing_zeros() & MSAA_MASK_BITS` in the top three bits;
`from_bits_retain` keeps the bits as given.  The key is modelled as its
`u32` bit pattern. -/
def from_msaa_samples (msaa_samples : Nat) : Nat :=
  ((u32_trailing_zeros msaa_samples &&& MSAA_MASK_BITS) <<<
      MSAA_SHIFT_BITS) % U32MOD

/-- `PolylinePipelineKey::msaa_samples`:
`1 << ((bits >> MSAA_SHIFT_BITS) & MSAA_MASK_BITS)`. -/
def msaa_samples (bits : Nat) : Nat :=
  (1 <<< ((bits >>> MSAA_SHIFT_BITS) &&& MSAA_MASK_BITS)) % U32MOD

/-- Bit patterns of the named `PolylinePipelineKey` flags. -/
def KEY_NONE : Nat := 0

/-- `PERSPECTIVE = 1 << 0`. -/
def KEY_PERSPECTIVE : Nat := 1

/-- `TRANSPARENT_MAIN_PASS = 1 << 1`. -/
def KEY_TRANSPARENT_MAIN_PASS : Nat := 2

/-- `bitflags` `contains`: all bits of `flag` are set in `key`. -/
def keyContains (key flag : Nat) : Bool := key &&& flag == flag

/-- The two `BlendState` constants the specialization chooses between. -/
inductive BlendState where
  | ALPHA_BLENDING
  | REPLACE
  deriving DecidableEq, Repr

/-- The `(label, blend, depth_write_enabled)` selection at the head of
`PolylinePipeline::specialize` (the `if / else if / else` over
`TRANSPARENT_MAIN_PASS` and `PERSPECTIVE`); `blend` is an `Option`
because the descriptor field is `Option<BlendState>`.  The rest of the
returned descriptor does not depend on these three and is not modelled. -/
def specializeLBD (key : Nat) : String × Option BlendState × Bool :=
  if keyContains key KEY_TRANSPARENT_MAIN_PASS then
    ("transparent_polyline_pipeline", some BlendState.ALPHA_BLENDING, false)
  else if keyContains key KEY_PERSPECTIVE then
    ("transparent_polyline_pipeline", some BlendState.ALPHA_BLENDING, true)
  else
    ("opaque_polyline_pipeline", some BlendState.REPLACE, true)

/-- States reachable from `with_capacity z c` by successful `add_vertex`
calls. -/
inductive Reachable {V : Type} (z : V) (c : Nat) : Polyline V → Prop where
  | init : Reachable z c (Polyline.with_capacity z c)
  | step {p q : Polyline V} (v : V) (b : Bool) :
      Reachable z c p → p.add_vertex v b = some q → Reachable z c q

/-- Inversion for a successful disconnected append: the three run-time
checks passed and the result state is the literal update the code
performs. -/
theorem add_vertex_false_inv {V : Type} {p q : Polyline V} {v : V}
    (h : p.add_vertex v false = some q) :
    p.current_vertex_index < p.vertices.length ∧
    0 < p.index_ranges.length ∧
    (p.current_vertex_index + 1) % p.vertices.length ≠ 0 ∧
    q = { vertices := p.vertices.set p.current_vertex_index v
          current_vertex_index :=
            (p.current_vertex_index + 1) % p.vertices.length - 1
          index_ranges := p.index_ranges.set
            ((p.current_index_index + 1) % p.index_ranges.length)
            ⟨p.current_vertex_index % U32MOD,
             (p.current_vertex_index % U32MOD + 1) % U32MOD⟩
          current_index_index :=
            (p.current_index_index + 1) % p.index_ranges.length } := by
  by_cases h1 : p.current_vertex_index < p.vertices.length
  · by_cases h2 : 0 < p.index_ranges.length
    · by_cases h3 : (p.current_vertex_index + 1) % p.vertices.length = 0
      · simp [Polyline.add_vertex, h1, h2, h3] at h
      · simp only [Polyline.add_vertex, h1, h2, h3, if_true, if_false,
          Bool.false_eq_true, ite_false, ite_true, ne_eq,
          not_false_eq_true, Option.some.injEq] at h
        exact ⟨h1, h2, h3, h.symm⟩
    · simp [Polyline.add_vertex, h1, h2] at h
  · simp [Polyline.add_vertex, h1] at h

/-- Inversion for a successful connected append: the range at the current
index exists, the cursor-update check passed, and the result state is the
literal update the code performs. -/
theorem add_vertex_true_inv {V : Type} {p q : Polyline V} {v : V}
    (h : p.add_vertex v true = some q) :
    ∃ r, p.index_ranges[p.current_index_index]? = some r ∧
    p.current_vertex_index < p.vertices.length ∧
    (p.current_vertex_index + 1) % p.vertices.length ≠ 0 ∧
    q = { vertices := p.vertices.set p.current_vertex_index v
          current_vertex_index :=
            (p.current_vertex_index + 1) % p.vertices.length - 1
          index_ranges := p.index_ranges.set p.current_index_index
            { r with «end» := (p.current_vertex_index % U32MOD + 1) % U32MOD }
          current_index_index := p.current_index_index } := by
  by_cases h1 : p.current_vertex_index < p.vertices.length
  · cases hro : p.index_ranges[p.current_index_index]? with
    | none => simp [Polyline.add_vertex, h1, hro] at h
    | some r =>
      by_cases h3 : (p.current_vertex_index + 1) % p.vertices.length = 0
      · simp [Polyline.add_vertex, h1, hro, h3] at h
      · refine ⟨r, rfl, h1, h3, ?_⟩
        simp only [Polyline.add_vertex, h1, hro, h3, if_true, if_false,
          ite_true, ite_false, ne_eq, not_false_eq_true,
          Option.some.injEq] at h
        exact h.symm
  · simp [Polyline.add_vertex, h1] at h

/-- Core invariant maintained by `add_vertex`: container lengths stay at
the construction capacity, the vertex cursor is stuck at 0 (the `- 1` in
the cursor update cancels the `+ 1` whenever no wrap occurs, and the call
aborts when a wrap would occur), and every range is `(0, 0)` or `(0, 1)`. -/
theorem reachable_inv {V : Type} {z : V} {c : Nat} {p : Polyline V}
    (h : Reachable z c p) :
    p.vertices.length = c ∧ p.index_ranges.length = c ∧
    p.current_vertex_index = 0 ∧
    ∀ r ∈ p.index_ranges, r = ⟨0, 0⟩ ∨ r = ⟨0, 1⟩ := by
  induction h with
  | init =>
    exact ⟨List.length_replicate .., List.length_replicate .., rfl,
      fun r hr => Or.inl (List.eq_of_mem_replicate hr)⟩
  | step v b hp hsome ih =>
    obtain ⟨hlv, hlr, hcv, hall⟩ := ih
    have hone : 1 % U32MOD = 1 := Nat.mod_eq_of_lt (by norm_num [U32MOD])
    cases b with
    | true =>
      obtain ⟨r, hro, h1, h3, rfl⟩ := add_vertex_true_inv hsome
      refine ⟨(List.length_set ..).trans hlv, (List.length_set ..).trans hlr,
        ?_, ?_⟩
      · simp only [hcv, hlv]
        exact Nat.sub_eq_zero_of_le (Nat.mod_le 1 c)
      · intro x hx
        rcases List.mem_or_eq_of_mem_set hx with hx' | rfl
        · exact hall x hx'
        · right
          rcases hall r (List.getElem?_mem hro) with rfl | rfl <;>
            simp [hcv, hone]
    | false =>
      obtain ⟨h1, h2, h3, rfl⟩ := add_vertex_false_inv hsome
      refine ⟨(List.length_set ..).trans hlv, (List.length_set ..).trans hlr,
        ?_, ?_⟩
      · simp only [hcv, hlv]
        exact Nat.sub_eq_zero_of_le (Nat.mod_le 1 c)
      · intro x hx
        rcases List.mem_or_eq_of_mem_set hx with hx' | rfl
        · exact hall x hx'
        · right
          simp [hcv, hone]

/-- C1: evaluating the draw command on a `GpuPolyline` with
`index_ranges = [(0,0), (0,3)]`: the code issues no draw at all — the
guard `start != 0 && end != 0` skips the `(0,3)` range, whose start is
0 — where the claim asks for exactly one draw with `vertex_range = 0..6`
and `instance_range = 0..3`. -/
theorem draw_skips_range_starting_at_zero :
    drawPolyline (some ⟨0, [⟨0, 0⟩, ⟨0, 3⟩]⟩) =
      (RenderCommandResult.Success, [PassCmd.setVertexBuffer 0 0]) ∧
    PassCmd.draw 0 6 0 3 ∉
      (drawPolyline (some ⟨0, [⟨0, 0⟩, ⟨0, 3⟩]⟩)).2 := by
  decide

/-- C2: with capacity 1 the very first `add_vertex` aborts: the cursor
update `(0 + 1) % 1 - 1` underflows `usize`.  The claim asserts no
runtime error for every capacity `n ≥ 1`. -/
theorem add_vertex_capacity_one_aborts :
    Polyline.add_vertex (Polyline.with_capacity (0 : Nat) 1) 7 true = none ∧
    Polyline.add_vertex (Polyline.with_capacity (0 : Nat) 1) 7 false =
      none := by
  decide

/-- C3: after one `add_vertex` on `with_capacity(4)` the vertex cursor is
0, not `(0 + 1) mod 4 = 1`: the code computes `(i + 1) % capacity - 1`,
not `(i + 1) % capacity`. -/
theorem cursor_does_not_advance :
    (Polyline.add_vertex (Polyline.with_capacity (0 : Nat) 4) 7
        false).map Polyline.current_vertex_index = some 0 ∧
    (0 : Nat) ≠ (0 + 1) % 4 := by
  decide

/-- C4: the S1 scenario `with_capacity(4); add_vertex((0,0,0), false);
add_vertex((1,0,0), true); add_vertex((2,0,0), true)` leaves
`index_ranges[1] = (0, 1)`, not `(0, 3)`: a connected append writes
`end := current_vertex_index + 1` and the cursor never advances, so the
second connected append overwrites `end` with the same value 1. -/
theorem connected_append_does_not_extend :
    ((((Polyline.with_capacity ((0, 0, 0) : Int × Int × Int) 4).add_vertex
          (0, 0, 0) false).bind
        (fun p => p.add_vertex (1, 0, 0) true)).bind
      (fun p => p.add_vertex (2, 0, 0) true)).map
        (fun p => p.index_ranges[1]?) = some (some ⟨0, 1⟩) ∧
    (⟨0, 1⟩ : IndexRange) ≠ ⟨0, 3⟩ := by
  decide

/-- C5: a successful disconnected append `add_vertex(v, false)` sets
`current_index_index` to `(old current_index_index + 1) mod
capacity(index_ranges)` and stores the half-open range
`[current_vertex_index, current_vertex_index + 1)` there.  The `u32`
cast hypothesis keeps the stored `u32` values equal to the `usize`
cursor. -/
theorem disconnected_append_creates {V : Type} (p q : Polyline V) (v : V)
    (h32 : p.current_vertex_index + 1 < U32MOD)
    (h : p.add_vertex v false = some q) :
    q.current_index_index =
      (p.current_index_index + 1) % p.index_ranges.length ∧
    q.index_ranges[q.current_index_index]? =
      some ⟨p.current_vertex_index, p.current_vertex_index + 1⟩ := by
  obtain ⟨h1, h2, h3, rfl⟩ := add_vertex_false_inv h
  have hm : p.current_vertex_index % U32MOD = p.current_vertex_index :=
    Nat.mod_eq_of_lt (Nat.lt_of_succ_lt h32)
  have hm2 : (p.current_vertex_index + 1) % U32MOD =
      p.current_vertex_index + 1 := Nat.mod_eq_of_lt h32
  refine ⟨rfl, ?_⟩
  simp only [hm, hm2]
  exact List.getElem?_set_eq_of_lt _ (Nat.mod_lt _ h2)

/-- Witness for `disconnected_append_creates`: one disconnected append on
`with_capacity 0 3` with `v = 9`. -/
theorem disconnected_append_creates_witness :
    (Polyline.mk [9, 0, 0] 0 [⟨0, 0⟩, ⟨0, 1⟩, ⟨0, 0⟩] 1 :
        Polyline Nat).current_index_index =
      ((Polyline.with_capacity (0 : Nat) 3).current_index_index + 1) %
        (Polyline.with_capacity (0 : Nat) 3).index_ranges.length ∧
    (Polyline.mk [9, 0, 0] 0 [⟨0, 0⟩, ⟨0, 1⟩, ⟨0, 0⟩] 1 :
        Polyline Nat).index_ranges[
      (Polyline.mk [9, 0, 0] 0 [⟨0, 0⟩, ⟨0, 1⟩, ⟨0, 0⟩] 1 :
        Polyline Nat).current_index_index]? =
      some ⟨(Polyline.with_capacity (0 : Nat) 3).current_vertex_index,
            (Polyline.with_capacity (0 : Nat) 3).current_vertex_index + 1⟩ :=
  disconnected_append_creates (Polyline.with_capacity (0 : Nat) 3)
    (Polyline.mk [9, 0, 0] 0 [⟨0, 0⟩, ⟨0, 1⟩, ⟨0, 0⟩] 1) 9
    (by decide) (by decide)

/-- C6: range well-formedness is an invariant of `add_vertex`: in every
state reachable from `with_capacity z c` by successful appends, every
index range other than `(0, 0)` satisfies `start < end ≤ c`. -/
theorem reachable_range_wellformed {V : Type} {z : V} {c : Nat}
    {p : Polyline V} (hr : Reachable z c p) (r : IndexRange)
    (hm : r ∈ p.index_ranges) (hne : r ≠ ⟨0, 0⟩) :
    r.start < r.«end» ∧ r.«end» ≤ c := by
  obtain ⟨-, hlr, -, hall⟩ := reachable_inv hr
  rcases hall r hm with rfl | rfl
  · exact absurd rfl hne
  · refine ⟨Nat.zero_lt_one, ?_⟩
    have hpos : 0 < p.index_ranges.length :=
      List.length_pos.mpr (List.ne_nil_of_mem hm)
    exact hlr ▸ hpos

/-- Witness for `reachable_range_wellformed`: the range `(0, 1)` present
after one disconnected append on `with_capacity 0 3`. -/
theorem reachable_range_wellformed_witness :
    (⟨0, 1⟩ : IndexRange).start < (⟨0, 1⟩ : IndexRange).«end» ∧
    (⟨0, 1⟩ : IndexRange).«end» ≤ 3 :=
  reachable_range_wellformed
    (Reachable.step 9 false Reachable.init
      (by decide :
        Polyline.add_vertex (Polyline.with_capacity (0 : Nat) 3) 9 false =
          some (Polyline.mk [9, 0, 0] 0 [⟨0, 0⟩, ⟨0, 1⟩, ⟨0, 0⟩] 1)))
    ⟨0, 1⟩ (by decide) (by decide)

/-- C7: the MSAA pipeline-key round-trip holds for every power-of-two
sample count 1, 2, 4, 8, 16, 32, 64, 128. -/
theorem msaa_roundtrip_powers :
    msaa_samples (from_msaa_samples 1) = 1 ∧
    msaa_samples (from_msaa_samples 2) = 2 ∧
    msaa_samples (from_msaa_samples 4) = 4 ∧
    msaa_samples (from_msaa_samples 8) = 8 ∧
    msaa_samples (from_msaa_samples 16) = 16 ∧
    msaa_samples (from_msaa_samples 32) = 32 ∧
    msaa_samples (from_msaa_samples 64) = 64 ∧
    msaa_samples (from_msaa_samples 128) = 128 := by
  decide

/-- C8: for every key, `specialize` picks label, blend and depth-write
exactly by the spec's three-row table over `TRANSPARENT_MAIN_PASS` and
`PERSPECTIVE`. -/
theorem specialize_follows_spec_table (key : Nat) :
    (keyContains key KEY_TRANSPARENT_MAIN_PASS = true →
       specializeLBD key =
         ("transparent_polyline_pipeline",
          some BlendState.ALPHA_BLENDING, false)) ∧
    (keyContains key KEY_TRANSPARENT_MAIN_PASS = false →
       keyContains key KEY_PERSPECTIVE = true →
       specializeLBD key =
         ("transparent_polyline_pipeline",
          some BlendState.ALPHA_BLENDING, true)) ∧
    (keyContains key KEY_TRANSPARENT_MAIN_PASS = false →
       keyContains key KEY_PERSPECTIVE = false →
       specializeLBD key =
         ("opaque_polyline_pipeline", some BlendState.REPLACE, true)) := by
  refine ⟨fun h1 => ?_, fun h1 h2 => ?_, fun h1 h2 => ?_⟩
  · simp [specializeLBD, h1]
  · simp [specializeLBD, h1, h2]
  · simp [specializeLBD, h1, h2]

/-- Witness for `specialize_follows_spec_table` at the keys
`TRANSPARENT_MAIN_PASS`, `PERSPECTIVE` and `NONE`. -/
theorem specialize_follows_spec_table_witness :
    specializeLBD 2 = ("transparent_polyline_pipeline",
      some BlendState.ALPHA_BLENDING, false) ∧
    specializeLBD 1 = ("transparent_polyline_pipeline",
      some BlendState.ALPHA_BLENDING, true) ∧
    specializeLBD 0 = ("opaque_polyline_pipeline",
      some BlendState.REPLACE, true) :=
  ⟨(specialize_follows_spec_table 2).1 (by decide),
   (specialize_follows_spec_table 1).2.1 (by decide) (by decide),
   (specialize_follows_spec_table 0).2.2 (by decide) (by decide)⟩

/-- C9: `DrawPolyline` returns `Failure` exactly when the prepared
`GpuPolyline` is absent, issues no pass call in that case, and returns
`Success` whenever the asset is present. -/
theorem draw_failure_iff_asset_absent (gpu : Option GpuPolyline) :
    ((drawPolyline gpu).1 = RenderCommandResult.Failure ↔ gpu = none) ∧
    (gpu = none → (drawPolyline gpu).2 = []) ∧
    (∀ g : GpuPolyline, gpu = some g →
       (drawPolyline gpu).1 = RenderCommandResult.Success) := by
  cases gpu <;> simp [drawPolyline]

/-- Witness for `draw_failure_iff_asset_absent` at a present and an
absent asset. -/
theorem draw_failure_iff_asset_absent_witness :
    (drawPolyline (some ⟨5, [⟨1, 3⟩]⟩)).1 = RenderCommandResult.Success ∧
    (drawPolyline none).2 = ([] : List PassCmd) :=
  ⟨(draw_failure_iff_asset_absent (some ⟨5, [⟨1, 3⟩]⟩)).2.2
      ⟨5, [⟨1, 3⟩]⟩ rfl,
   (draw_failure_iff_asset_absent none).2.1 rfl⟩

/-- C10: frame condition of `add_vertex`.  A successful connected append
modifies at most `vertices[current_vertex_index]` and the `end` field of
`index_ranges[current_index_index]`: both cursors, every other vertex
slot, every other range, and the `start` field of the current range are
unchanged.  A successful disconnected append modifies at most
`vertices[old current_vertex_index]`, the single range at the new
`current_index_index`, and the two cursor fields: every other vertex
slot and every other range is unchanged. -/
theorem add_vertex_frame {V : Type} (p q : Polyline V) (v : V) :
    (p.add_vertex v true = some q →
       q.current_index_index = p.current_index_index ∧
       q.current_vertex_index = p.current_vertex_index ∧
       (∀ i, i ≠ p.current_vertex_index →
          q.vertices[i]? = p.vertices[i]?) ∧
       (∀ j, j ≠ p.current_index_index →
          q.index_ranges[j]? = p.index_ranges[j]?) ∧
       (q.index_ranges[p.current_index_index]?).map IndexRange.start =
         (p.index_ranges[p.current_index_index]?).map IndexRange.start) ∧
    (p.add_vertex v false = some q →
       (∀ i, i ≠ p.current_vertex_index →
          q.vertices[i]? = p.vertices[i]?) ∧
       (∀ j, j ≠ q.current_index_index →
          q.index_ranges[j]? = p.index_ranges[j]?)) := by
  constructor
  · intro h
    obtain ⟨r, hro, h1, h3, rfl⟩ := add_vertex_true_inv h
    have hcv : (p.current_vertex_index + 1) % p.vertices.length - 1 =
        p.current_vertex_index := by
      rcases Nat.lt_or_eq_of_le h1 with hlt | heq
      · rw [Nat.mod_eq_of_lt hlt]
        omega
      · exfalso
        apply h3
        have hlen : p.vertices.length = p.current_vertex_index + 1 := heq.symm
        rw [hlen, Nat.mod_self]
    have hlt2 : p.current_index_index < p.index_ranges.length := by
      by_contra hge
      rw [List.getElem?_eq_none (Nat.le_of_not_lt hge)] at hro
      exact Option.noConfusion hro
    refine ⟨rfl, hcv, fun i hi => List.getElem?_set_ne (Ne.symm hi),
      fun j hj => List.getElem?_set_ne (Ne.symm hj), ?_⟩
    rw [List.getElem?_set_eq_of_lt _ hlt2, hro]
    rfl
  · intro h
    obtain ⟨h1, h2, h3, rfl⟩ := add_vertex_false_inv h
    exact ⟨fun i hi => List.getElem?_set_ne (Ne.symm hi),
      fun j hj => List.getElem?_set_ne (Ne.symm hj)⟩

/-- Witness for `add_vertex_frame`: both branches on `with_capacity 0 3`
with `v = 5`, checking a vertex slot and a range the call must not
touch. -/
theorem add_vertex_frame_witness :
    (Polyline.mk [5, 0, 0] 0 [⟨0, 1⟩, ⟨0, 0⟩, ⟨0, 0⟩] 0 :
        Polyline Nat).vertices[1]? =
      (Polyline.with_capacity (0 : Nat) 3).vertices[1]? ∧
    (Polyline.mk [5, 0, 0] 0 [⟨0, 0⟩, ⟨0, 1⟩, ⟨0, 0⟩] 1 :
        Polyline Nat).index_ranges[0]? =
      (Polyline.with_capacity (0 : Nat) 3).index_ranges[0]? :=
  ⟨((add_vertex_frame (Polyline.with_capacity (0 : Nat) 3)
        (Polyline.mk [5, 0, 0] 0 [⟨0, 1⟩, ⟨0, 0⟩, ⟨0, 0⟩] 0) 5).1
      (by decide)).2.2.1 1 (by decide),
   ((add_vertex_frame (Polyline.with_capacity (0 : Nat) 3)
        (Polyline.mk [5, 0, 0] 0 [⟨0, 0⟩, ⟨0, 1⟩, ⟨0, 0⟩] 1) 5).2
      (by decide)).2 0 (by decide)⟩
